import Mathlib

/-!
Shallow embedding of the code relationship graph engine of
`mcp_server/enhanced_code_graph_server.py` (class `EnhancedCodeGraphServer`),
together with proofs about its specification.

Modelling conventions:
* Python strings are modelled by `String` / `List Char`; all text helpers
  (strip, split, the specific regular expressions used by the source) are
  hand-rolled executable functions over `List Char`, each faithful to the
  exact pattern that appears in the source.
* The in-memory node store `self.nodes : Dict[str, CodeNode]` is modelled as
  an insertion-ordered association list with in-place replacement on key
  collision, which is exactly the (insertion-ordered) Python dict semantics.
* `self.relationships : List[CodeRelationship]` is a plain list (append only).
* The networkx mirror `self.code_graph` and the SQLite durable mirror
  (`_setup_database`, `_save_analysis_to_db`) duplicate the in-memory state
  and are not read by any of the engine operations treated here; they are not
  modelled.
* Floats (`confidence`, `similarity_score`) are modelled as rationals.
* The filesystem is modelled as a function from path to `FileContent`
  (missing / undecodable / text), covering the two error paths the source
  handles (`Path.exists` and `UnicodeDecodeError`).
-/

namespace CodeGraph

/-! ### Character classes and low-level text helpers -/

/-- The quote characters accepted by the pattern `["\']` in the source. -/
def qDouble : Char := Char.ofNat 34

def qSingle : Char := Char.ofNat 39

def obrace : Char := Char.ofNat 123

def cbrace : Char := Char.ofNat 125

def gtChar : Char := Char.ofNat 62

/-- Whitespace as matched by `\s` (ASCII part) and stripped by `str.strip()`. -/
def isWsChar (c : Char) : Bool :=
  c == ' ' || c == '\t' || c == '\n' || c == '\r' || c == Char.ofNat 11 || c == Char.ofNat 12

/-- The character class `[a-zA-Z0-9_]`. -/
def isIdentChar (c : Char) : Bool :=
  (c ≥ 'a' && c ≤ 'z') || (c ≥ 'A' && c ≤ 'Z') || (c ≥ '0' && c ≤ '9') || c == '_'

/-- The character class `[a-zA-Z]`. -/
def isAsciiAlpha (c : Char) : Bool :=
  (c ≥ 'a' && c ≤ 'z') || (c ≥ 'A' && c ≤ 'Z')

/-- The character class `[a-zA-Z0-9_.]` (namespace names). -/
def isIdentDotChar (c : Char) : Bool := isIdentChar c || c == '.'

/-- The character class `[a-zA-Z0-9_<>\[\]]` (method return types). -/
def isTypeChar (c : Char) : Bool :=
  isIdentChar c || c == '<' || c == gtChar || c == '[' || c == ']'

/-- The character class `[a-zA-Z0-9_\[\]]` (SQL object names). -/
def isSqlNameChar (c : Char) : Bool := isIdentChar c || c == '[' || c == ']'

/-- Python `str.strip()`. -/
def stripWs (cs : List Char) : List Char :=
  ((cs.dropWhile isWsChar).reverse.dropWhile isWsChar).reverse

/-- Python `content.split(chr(10))`: split on newline, keeping empty pieces
(`"".split` gives one empty piece). -/
def splitLinesL : List Char → List (List Char)
  | [] => [[]]
  | c :: rest =>
    if c == '\n' then [] :: splitLinesL rest
    else
      match splitLinesL rest with
      | [] => [[c]]
      | l :: ls => (c :: l) :: ls

/-- `enumerate(lines, 1)`. -/
def enumFrom {α : Type} : Nat → List α → List (Nat × α)
  | _, [] => []
  | i, a :: as => (i, a) :: enumFrom (i + 1) as

/-- Python substring containment (`needle in haystack`). -/
def containsSub (needle : List Char) : List Char → Bool
  | [] => needle.isEmpty
  | c :: rest => needle.isPrefixOf (c :: rest) || containsSub needle rest

def strData (s : String) : List Char := s.data

/-- Python `s.lower()` (ASCII usage here). -/
def lowerL (cs : List Char) : List Char := cs.map Char.toLower

/-- Python `s.upper()` (ASCII usage here). -/
def upperL (cs : List Char) : List Char := cs.map Char.toUpper

/-- Python `s.strip(chr(91) + chr(93))`, i.e. `.strip(brackets)`. -/
def isBracketChar (c : Char) : Bool := c == '[' || c == ']'

def stripBrackets (cs : List Char) : List Char :=
  ((cs.dropWhile isBracketChar).reverse.dropWhile isBracketChar).reverse

/-! ### Deterministic matchers for the regular expressions of the source

Each matcher simulates the exact regex from the source.  The regexes used
by the source are simple enough that greedy matching plus the explicit
alternative "skip an optional group" is a complete backtracking search:
the repeated character classes are always followed by a pattern starting
with a character outside the class, so greedy runs never need to shrink. -/

/-- Match a literal, returning what follows. -/
def matchLit (lit : List Char) (cs : List Char) : Option (List Char) :=
  if lit.isPrefixOf cs then some (cs.drop lit.length) else none

/-- `\s+`. -/
def matchWs1 (cs : List Char) : Option (List Char) :=
  let r := cs.dropWhile isWsChar
  if r.length == cs.length then none else some r

/-- `re.match(r'namespace\s+([a-zA-Z0-9_.]+)', line)`. -/
def matchNamespaceDecl (cs : List Char) : Option String :=
  match matchLit (strData "namespace") cs with
  | none => none
  | some r1 =>
    match matchWs1 r1 with
    | none => none
    | some r2 =>
      let g := r2.takeWhile isIdentDotChar
      if g.isEmpty then none else some (String.mk g)

/-- The alternation `(?:public|private|protected|internal)?`: at most one
alternative can match (they are prefix-disjoint); on failure of the rest of the
pattern the regex engine would retry with the group empty, which `orElse` in
the continuation-passing style below reproduces. -/
def matchModOpt {α : Type} (cs : List Char) (k : List Char → Option α) : Option α :=
  match matchLit (strData "public") cs with
  | some r => (k r).orElse (fun _ => k cs)
  | none =>
  match matchLit (strData "private") cs with
  | some r => (k r).orElse (fun _ => k cs)
  | none =>
  match matchLit (strData "protected") cs with
  | some r => (k r).orElse (fun _ => k cs)
  | none =>
  match matchLit (strData "internal") cs with
  | some r => (k r).orElse (fun _ => k cs)
  | none => k cs

/-- An optional group `(?:kw\s+)?` with backtracking into the continuation. -/
def matchOptKwWs {α : Type} (kw : String) (cs : List Char) (k : List Char → Option α) :
    Option α :=
  match matchLit (strData kw) cs with
  | none => k cs
  | some r =>
    match matchWs1 r with
    | none => k cs
    | some r2 => (k r2).orElse (fun _ => k cs)

/-- `re.match(r'(?:public|private|protected|internal)?\s*(?:partial\s+)?(?:static\s+)?class\s+([a-zA-Z0-9_]+)', line)`. -/
def matchClassDecl (cs : List Char) : Option String :=
  matchModOpt cs (fun r =>
    let r := r.dropWhile isWsChar
    matchOptKwWs "partial" r (fun r =>
    matchOptKwWs "static" r (fun r =>
      match matchLit (strData "class") r with
      | none => none
      | some r2 =>
        match matchWs1 r2 with
        | none => none
        | some r3 =>
          let g := r3.takeWhile isIdentChar
          if g.isEmpty then none else some (String.mk g))))

/-- The tail `[a-zA-Z0-9_<>\[\]]+\s+([a-zA-Z0-9_]+)\s*\(` of the method regex. -/
def matchMethodTail (r : List Char) : Option String :=
  let t := r.takeWhile isTypeChar
  if t.isEmpty then none
  else
    match matchWs1 (r.drop t.length) with
    | none => none
    | some r3 =>
      let g := r3.takeWhile isIdentChar
      if g.isEmpty then none
      else
        let r4 := (r3.drop g.length).dropWhile isWsChar
        if r4.head? == some '(' then some (String.mk g) else none

/-- `re.match(r'(?:public|private|protected|internal)?\s*(?:static\s+)?(?:async\s+)?(?:override\s+)?(?:virtual\s+)?[a-zA-Z0-9_<>\[\]]+\s+([a-zA-Z0-9_]+)\s*\(', line)`. -/
def matchMethodDecl (cs : List Char) : Option String :=
  matchModOpt cs (fun r =>
    let r := r.dropWhile isWsChar
    matchOptKwWs "static" r (fun r =>
    matchOptKwWs "async" r (fun r =>
    matchOptKwWs "override" r (fun r =>
    matchOptKwWs "virtual" r (fun r =>
      matchMethodTail r)))))

/-- `re.search(r'["\']([a-zA-Z0-9_]+)["\']', line)`: first position whose
quote-delimited identifier run succeeds. -/
def searchQuotedIdent : List Char → Option String
  | [] => none
  | c :: rest =>
    if c == qDouble || c == qSingle then
      let g := rest.takeWhile isIdentChar
      let after := rest.drop g.length
      if !g.isEmpty && (after.head?.map (fun ch => ch == qDouble || ch == qSingle)).getD false then
        some (String.mk g)
      else searchQuotedIdent rest
    else searchQuotedIdent rest

/-! ### Data model (`NodeType`, `RelationshipType`, `CodeNode`, `CodeRelationship`, `CodePattern`) -/

/-- `class NodeType(Enum)` of the source. -/
inductive NodeType where
  | CLASS | METHOD | PROPERTY | FIELD | STORED_PROCEDURE | TABLE
  | ASPX_PAGE | ASPX_CONTROL | NAMESPACE | INTERFACE | ENUM_T
  | CONSTANT | EVENT | DELEGATE
deriving DecidableEq, Repr

/-- The `.value` string of each `NodeType` member. -/
def NodeType.value : NodeType → String
  | .CLASS => "class"
  | .METHOD => "method"
  | .PROPERTY => "property"
  | .FIELD => "field"
  | .STORED_PROCEDURE => "stored_procedure"
  | .TABLE => "table"
  | .ASPX_PAGE => "aspx_page"
  | .ASPX_CONTROL => "aspx_control"
  | .NAMESPACE => "namespace"
  | .INTERFACE => "interface"
  | .ENUM_T => "enum"
  | .CONSTANT => "constant"
  | .EVENT => "event"
  | .DELEGATE => "delegate"

/-- `class RelationshipType(Enum)` of the source. -/
inductive RelationshipType where
  | INHERITANCE | IMPLEMENTS | METHOD_CALL | DATABASE_ACCESS | PROPERTY_ACCESS
  | CODEBEHIND | CONTAINS | REFERENCES | USES | DEPENDS_ON | FOREIGN_KEY
  | COMPOSITION | AGGREGATION
deriving DecidableEq, Repr

/-- The `.value` string of each `RelationshipType` member. -/
def RelationshipType.value : RelationshipType → String
  | .INHERITANCE => "inheritance"
  | .IMPLEMENTS => "implements"
  | .METHOD_CALL => "method_call"
  | .DATABASE_ACCESS => "database_access"
  | .PROPERTY_ACCESS => "property_access"
  | .CODEBEHIND => "codebehind"
  | .CONTAINS => "contains"
  | .REFERENCES => "references"
  | .USES => "uses"
  | .DEPENDS_ON => "depends_on"
  | .FOREIGN_KEY => "foreign_key"
  | .COMPOSITION => "composition"
  | .AGGREGATION => "aggregation"

/-- Values stored in the open `metadata` / `template_data` mappings of the
source (strings, ints, bools, and Python `None`). -/
inductive Val where
  | vStr (s : String)
  | vNat (n : Nat)
  | vBool (b : Bool)
  | vNull
deriving DecidableEq, Repr

/-- A metadata mapping, modelled as an insertion-ordered association list. -/
abbrev Metadata := List (String × Val)

/-- `@dataclass CodeNode`. -/
structure CodeNode where
  id : String
  name : String
  node_type : NodeType
  file_path : String
  line_number : Nat
  metadata : Metadata
deriving DecidableEq, Repr

/-- `@dataclass CodeRelationship` (`confidence` is a float in the source,
modelled as a rational). -/
structure CodeRelationship where
  source_id : String
  target_id : String
  relationship_type : RelationshipType
  metadata : Metadata
  confidence : ℚ
deriving DecidableEq, Repr

/-- `@dataclass CodePattern`. -/
structure CodePattern where
  pattern_id : String
  pattern_type : String
  files : List String
  nodes : List CodeNode
  relationships : List CodeRelationship
  template_data : Metadata
  similarity_score : ℚ
deriving DecidableEq, Repr

/-- The engine's mutable state: `self.nodes` (an insertion-ordered dict keyed
by node id), `self.relationships`, and `self.patterns`. -/
structure ServerState where
  nodes : List (String × CodeNode)
  relationships : List CodeRelationship
  patterns : List CodePattern
deriving DecidableEq

/-- The freshly constructed engine (`__init__`). -/
def initState : ServerState := { nodes := [], relationships := [], patterns := [] }

/-- `self.nodes[node.id] = node`: in-place replacement if the key exists,
append otherwise (Python dict assignment). -/
def upsertNode (m : List (String × CodeNode)) (n : CodeNode) : List (String × CodeNode) :=
  match m with
  | [] => [(n.id, n)]
  | (k, v) :: rest => if k = n.id then (k, n) :: rest else (k, v) :: upsertNode rest n

/-- Dict lookup `self.nodes[key]` / membership `key in self.nodes`. -/
def lookupNode (m : List (String × CodeNode)) (key : String) : Option CodeNode :=
  match m with
  | [] => none
  | (k, v) :: rest => if k = key then some v else lookupNode rest key

def idsOf (m : List (String × CodeNode)) : List String := m.map Prod.fst

/-- `_extract_access_modifier`. -/
def extractAccessModifier (ls : List Char) : String :=
  let ll := lowerL ls
  if containsSub (strData "private") ll then "private"
  else if containsSub (strData "protected") ll then "protected"
  else if containsSub (strData "internal") ll then "internal"
  else if containsSub (strData "public") ll then "public"
  else "default"

def optVal : Option String → Val
  | some s => .vStr s
  | none => .vNull

/-! ### The procedural-code (C#) extractor `_analyze_csharp_detailed` -/

/-- The scan state threaded through the line loop of `_analyze_csharp_detailed`
(`current_namespace`, `current_class`, `in_method`, `brace_count`).  Note that
the source initializes `in_method = False` and never assigns it again. -/
structure CsState where
  current_namespace : Option String
  current_class : Option String
  in_method : Bool
  brace_count : Int
deriving DecidableEq

def csInit : CsState :=
  { current_namespace := none, current_class := none, in_method := false, brace_count := 0 }

/-- Brace counting (`brace_count += line.count(obrace) - line.count(cbrace)`). -/
def bracesUpdate (st : CsState) (ls : List Char) : CsState :=
  { st with brace_count :=
      st.brace_count + (ls.countP (fun c => c == obrace) : Int)
        - (ls.countP (fun c => c == cbrace) : Int) }

/-- The namespace-detection branch. -/
def nsBranch (fp : String) (lineNum : Nat) (ls : List Char) (st : CsState)
    (nodes : List CodeNode) : CsState × List CodeNode :=
  match matchNamespaceDecl ls with
  | none => (st, nodes)
  | some nsName =>
    let node : CodeNode :=
      { id := fp ++ ":namespace:" ++ nsName
        name := nsName
        node_type := .NAMESPACE
        file_path := fp
        line_number := lineNum
        metadata := [("scope", .vStr "namespace")] }
    ({ st with current_namespace := some nsName }, nodes ++ [node])

/-- The class-detection branch (node, plus a `contains` edge from the current
namespace when one is set). -/
def classBranch (fp : String) (lineNum : Nat) (ls : List Char) (st : CsState)
    (nodes : List CodeNode) (rels : List CodeRelationship) :
    CsState × List CodeNode × List CodeRelationship :=
  match matchClassDecl ls with
  | none => (st, nodes, rels)
  | some className =>
    let nodeId := fp ++ ":class:" ++ className
    let node : CodeNode :=
      { id := nodeId
        name := className
        node_type := .CLASS
        file_path := fp
        line_number := lineNum
        metadata := [("namespace", optVal st.current_namespace),
                     ("access_modifier", .vStr (extractAccessModifier ls))] }
    let nodes := nodes ++ [node]
    let rels :=
      match st.current_namespace with
      | some nsName =>
        rels ++
          [{ source_id := fp ++ ":namespace:" ++ nsName
             target_id := nodeId
             relationship_type := .CONTAINS
             metadata := [("scope", .vStr "namespace_contains_class")]
             confidence := 1 }]
      | none => rels
    ({ st with current_class := some className }, nodes, rels)

/-- The method-detection branch (guarded by `current_class` and by the line
not starting with a comment). -/
def methodBranch (fp : String) (lineNum : Nat) (ls : List Char) (st : CsState)
    (nodes : List CodeNode) (rels : List CodeRelationship) :
    CsState × List CodeNode × List CodeRelationship :=
  match matchMethodDecl ls, st.current_class with
  | some methodName, some cls =>
    if (strData "//").isPrefixOf ls then (st, nodes, rels)
    else
      let nodeId := fp ++ ":method:" ++ cls ++ ":" ++ methodName
      let node : CodeNode :=
        { id := nodeId
          name := methodName
          node_type := .METHOD
          file_path := fp
          line_number := lineNum
          metadata := [("class", .vStr cls),
                       ("access_modifier", .vStr (extractAccessModifier ls)),
                       ("is_static", .vBool (containsSub (strData "static") ls)),
                       ("is_async", .vBool (containsSub (strData "async") ls))] }
      let rel : CodeRelationship :=
        { source_id := fp ++ ":class:" ++ cls
          target_id := nodeId
          relationship_type := .CONTAINS
          metadata := [("scope", .vStr "class_contains_method")]
          confidence := 1 }
      (st, nodes ++ [node], rels ++ [rel])
  | _, _ => (st, nodes, rels)

/-- The database-access branch: on a line holding one of the data-access
keywords, a quoted identifier beginning `sp_`/`usp_` produces a
stored-procedure node (deduplicated against the nodes emitted so far for this
file) and, only when `in_method and current_class` holds, a `database_access`
relationship from the class's wildcard method id. -/
def dbBranch (fp : String) (lineNum : Nat) (ls : List Char) (st : CsState)
    (nodes : List CodeNode) (rels : List CodeRelationship) :
    List CodeNode × List CodeRelationship :=
  if ["SqlCommand", "SqlConnection", "ExecuteNonQuery", "ExecuteScalar"].any
      (fun kw => containsSub (strData kw) ls) then
    match searchQuotedIdent ls with
    | none => (nodes, rels)
    | some procName =>
      if (strData "sp_").isPrefixOf procName.data
          || (strData "usp_").isPrefixOf procName.data then
        let procNodeId := "database:procedure:" ++ procName
        let procNode : CodeNode :=
          { id := procNodeId
            name := procName
            node_type := .STORED_PROCEDURE
            file_path := "database"
            line_number := 0
            metadata := [("database_object", .vBool true)] }
        let nodes :=
          if nodes.any (fun n => n.id == procNodeId) then nodes
          else nodes ++ [procNode]
        let rels :=
          if st.in_method then
            match st.current_class with
            | some cls =>
              rels ++
                [{ source_id := fp ++ ":method:" ++ cls ++ ":*"
                   target_id := procNodeId
                   relationship_type := .DATABASE_ACCESS
                   metadata := [("line_number", .vNat lineNum)]
                   confidence := 1 }]
            | none => rels
          else rels
        (nodes, rels)
      else (nodes, rels)
  else (nodes, rels)

/-- One iteration of the line loop of `_analyze_csharp_detailed`. -/
def processCsLine (fp : String) (acc : CsState × List CodeNode × List CodeRelationship)
    (ln : Nat × List Char) : CsState × List CodeNode × List CodeRelationship :=
  let ls := stripWs ln.2
  let st0 := bracesUpdate acc.1 ls
  let r1 := nsBranch fp ln.1 ls st0 acc.2.1
  let r2 := classBranch fp ln.1 ls r1.1 r1.2 acc.2.2
  let r3 := methodBranch fp ln.1 ls r2.1 r2.2.1 r2.2.2
  let r4 := dbBranch fp ln.1 ls r3.1 r3.2.1 r3.2.2
  (r3.1, r4.1, r4.2)

/-- `_analyze_csharp_detailed(file_path, content)`. -/
def analyzeCsharpDetailed (fp : String) (content : String) :
    List CodeNode × List CodeRelationship :=
  let r := (enumFrom 1 (splitLinesL content.data)).foldl (processCsLine fp) (csInit, [], [])
  (r.2.1, r.2.2)

/-! ### Path helpers (`pathlib.Path` operations used by the source) -/

/-- The final path component (`Path(p).name`). -/
def lastComponent (p : List Char) : List Char :=
  ((p.reverse.takeWhile (fun c => c != '/')).reverse)

/-- Index (from the start) of the last dot of a component, if any. -/
def lastDotIdx (name : List Char) : Option Nat :=
  match (name.reverse.takeWhile (fun c => c != '.')).length, name.length with
  | k, n => if k == n then none else some (n - k - 1)

/-- `Path(p).suffix`: the extension of the final component (`name[i:]` when
`0 < i < len(name) - 1` for `i` the index of the last dot, else empty). -/
def pathSuffix (p : String) : String :=
  let name := lastComponent p.data
  match lastDotIdx name with
  | none => ""
  | some i => if 0 < i && i + 1 < name.length then String.mk (name.drop i) else ""

/-- `Path(p).stem`: the final component without its suffix. -/
def pathStem (p : String) : String :=
  let name := lastComponent p.data
  match lastDotIdx name with
  | none => String.mk name
  | some i => if 0 < i && i + 1 < name.length then String.mk (name.take i) else String.mk name

/-- `str(Path(p).parent / child)` for the forward-slash paths used here
(`Path(x).parent` of a bare filename is the dot path, and joining the dot path
with `child` yields `child`). -/
def parentJoin (p : String) (child : String) : String :=
  if p.data.any (fun c => c == '/') then
    String.mk ((p.data.reverse.dropWhile (fun c => c != '/')).reverse.dropLast) ++ "/" ++ child
  else child

/-! ### The markup/view extractor `_analyze_aspx_detailed` -/

/-- Try `CodeBehind="([^"]+)"` at this exact position. -/
def matchCodebehindAt (cs : List Char) : Option String :=
  match matchLit (strData "CodeBehind=" ++ [qDouble]) cs with
  | none => none
  | some r =>
    let g := r.takeWhile (fun c => c != qDouble)
    if !g.isEmpty && (r.drop g.length).head? == some qDouble then some (String.mk g)
    else none

/-- `re.search(r'CodeBehind="([^"]+)"', content)`. -/
def searchCodebehind : List Char → Option String
  | [] => none
  | c :: rest =>
    match matchCodebehindAt (c :: rest) with
    | some g => some g
    | none => searchCodebehind rest

/-- Try `ATTR="([^"]+)"` at this position, where `ATTR=` with its opening
quote is `attrLit`; returns the group and the remainder after the closing
quote. -/
def matchAttrTail (attrLit : List Char) (cs : List Char) :
    Option (List Char × List Char) :=
  match matchLit attrLit cs with
  | none => none
  | some r =>
    let g := r.takeWhile (fun c => c != qDouble)
    let r2 := r.drop g.length
    if !g.isEmpty && r2.head? == some qDouble then some (g, r2.drop 1) else none

/-- Greedy `[^>]*ATTR="([^"]+)"`: the regex engine consumes as much of the
`'>'`-free region as possible and backtracks, so the successful start
position of `ATTR` is the largest one; `k` counts down from that bound. -/
def findLastAttr (attrLit : List Char) (cs : List Char) :
    Nat → Option (List Char × List Char)
  | 0 => matchAttrTail attrLit cs
  | k + 1 =>
    match matchAttrTail attrLit (cs.drop (k + 1)) with
    | some res => some res
    | none => findLastAttr attrLit cs k

/-- Try the control pattern `<asp:([a-zA-Z]+)\s+[^>]*ATTR="([^"]+)"` at this
position; returns `((control_type, control_id), rest-after-match)`. -/
def matchControlAt (attrLit : List Char) (cs : List Char) :
    Option ((List Char × List Char) × List Char) :=
  match matchLit (strData "<asp:") cs with
  | none => none
  | some r =>
    let ty := r.takeWhile isAsciiAlpha
    if ty.isEmpty then none
    else
      match matchWs1 (r.drop ty.length) with
      | none => none
      | some r3 =>
        let k0 := (r3.takeWhile (fun c => c != gtChar)).length
        match findLastAttr attrLit r3 k0 with
        | some (g, rest) => some ((ty, g), rest)
        | none => none

/-- `re.finditer` of the control pattern over one line (non-overlapping,
left to right); fuelled recursion (fuel bounds the number of characters
consumed). -/
def finditerControl (attrLit : List Char) : Nat → List Char → List (List Char × List Char)
  | 0, _ => []
  | _ + 1, [] => []
  | fuel + 1, c :: rest =>
    match matchControlAt attrLit (c :: rest) with
    | some (res, r2) => res :: finditerControl attrLit fuel r2
    | none => finditerControl attrLit fuel rest

/-- The two control patterns of the source: `ID="..."` then `id="..."`. -/
def controlAttrLits : List (List Char) :=
  [strData "ID=" ++ [qDouble], strData "id=" ++ [qDouble]]

/-- `_analyze_aspx_detailed(file_path, content)`. -/
def analyzeAspxDetailed (fp : String) (content : String) :
    List CodeNode × List CodeRelationship :=
  let pageName := pathStem fp
  let pageNodeId := fp ++ ":page:" ++ pageName
  let pageNode : CodeNode :=
    { id := pageNodeId
      name := pageName
      node_type := .ASPX_PAGE
      file_path := fp
      line_number := 1
      metadata := [("page_type", .vStr "aspx")] }
  let nodes := [pageNode]
  let rels : List CodeRelationship :=
    match searchCodebehind content.data with
    | some codebehindFile =>
      let codebehindPath := parentJoin fp codebehindFile
      [{ source_id := pageNodeId
         target_id := codebehindPath ++ ":class:*"
         relationship_type := .CODEBEHIND
         metadata := [("codebehind_file", .vStr codebehindPath)]
         confidence := 1 }]
    | none => []
  let perLine := fun (acc : List CodeNode × List CodeRelationship) (ln : Nat × List Char) =>
    controlAttrLits.foldl (fun acc attrLit =>
      (finditerControl attrLit (ln.2.length + 1) ln.2).foldl (fun acc m =>
        let controlId := String.mk m.2
        let controlNodeId := fp ++ ":control:" ++ controlId
        let node : CodeNode :=
          { id := controlNodeId
            name := controlId
            node_type := .ASPX_CONTROL
            file_path := fp
            line_number := ln.1
            metadata := [("control_type", .vStr (String.mk m.1))] }
        let rel : CodeRelationship :=
          { source_id := pageNodeId
            target_id := controlNodeId
            relationship_type := .CONTAINS
            metadata := [("scope", .vStr "page_contains_control")]
            confidence := 1 }
        (acc.1 ++ [node], acc.2 ++ [rel])) acc) acc
  (enumFrom 1 (splitLinesL content.data)).foldl perLine (nodes, rels)

/-! ### The schema-definition extractor `_analyze_sql_detailed` -/

/-- Try `CREATE\s+PROCEDURE\s+([a-zA-Z0-9_\[\]]+)` at this position. -/
def matchCreateProcAt (cs : List Char) : Option (List Char) :=
  match matchLit (strData "CREATE") cs with
  | none => none
  | some r =>
    match matchWs1 r with
    | none => none
    | some r2 =>
      match matchLit (strData "PROCEDURE") r2 with
      | none => none
      | some r3 =>
        match matchWs1 r3 with
        | none => none
        | some r4 =>
          let g := r4.takeWhile isSqlNameChar
          if g.isEmpty then none else some g

/-- `re.search` of the procedure pattern. -/
def searchCreateProc : List Char → Option (List Char)
  | [] => none
  | c :: rest =>
    match matchCreateProcAt (c :: rest) with
    | some g => some g
    | none => searchCreateProc rest

/-- Try one table pattern (a sequence of keywords each followed by `\s+`,
then `([a-zA-Z0-9_\[\]]+)`) at this position; returns `(group, rest)`. -/
def matchKwTableAt (kws : List (List Char)) (cs : List Char) :
    Option (List Char × List Char) :=
  match kws with
  | [] =>
    let g := cs.takeWhile isSqlNameChar
    if g.isEmpty then none else some (g, cs.drop g.length)
  | kw :: rest =>
    match matchLit kw cs with
    | none => none
    | some r =>
      match matchWs1 r with
      | none => none
      | some r2 => matchKwTableAt rest r2

/-- `re.finditer` of one table pattern over a line (non-overlapping). -/
def finditerKwTable (kws : List (List Char)) : Nat → List Char → List (List Char)
  | 0, _ => []
  | _ + 1, [] => []
  | fuel + 1, c :: rest =>
    match matchKwTableAt kws (c :: rest) with
    | some (g, r2) => g :: finditerKwTable kws fuel r2
    | none => finditerKwTable kws fuel rest

/-- The four table patterns of the source, in order:
`FROM`, `JOIN`, `UPDATE`, `INSERT INTO`. -/
def tableKwPatterns : List (List (List Char)) :=
  [[strData "FROM"], [strData "JOIN"], [strData "UPDATE"], [strData "INSERT", strData "INTO"]]

/-- `_analyze_sql_detailed(file_path, content)`. -/
def analyzeSqlDetailed (fp : String) (content : String) :
    List CodeNode × List CodeRelationship :=
  let perLine := fun (nodes : List CodeNode) (ln : Nat × List Char) =>
    let lineUpper := stripWs (upperL ln.2)
    let nodes :=
      if (strData "CREATE PROCEDURE").isPrefixOf lineUpper then
        match searchCreateProc lineUpper with
        | some g =>
          let procName := String.mk (stripBrackets g)
          nodes ++
            [{ id := "database:procedure:" ++ procName
               name := procName
               node_type := .STORED_PROCEDURE
               file_path := fp
               line_number := ln.1
               metadata := [("database_object", .vBool true)] }]
        | none => nodes
      else nodes
    tableKwPatterns.foldl (fun nodes kws =>
      (finditerKwTable kws (lineUpper.length + 1) lineUpper).foldl (fun nodes g =>
        let tableName := String.mk (stripBrackets g)
        let tableNodeId := "database:table:" ++ tableName
        if nodes.any (fun n => n.id == tableNodeId) then nodes
        else
          nodes ++
            [{ id := tableNodeId
               name := tableName
               node_type := .TABLE
               file_path := "database"
               line_number := 0
               metadata := [("database_object", .vBool true)] }]) nodes) nodes
  ((enumFrom 1 (splitLinesL content.data)).foldl perLine [], [])

/-! ### Scanner / pipeline: `_analyze_file_detailed`, `analyze_specific_files` -/

/-- A filesystem entry, as observed by the source: the path may not exist,
the file may fail UTF-8 decoding (`UnicodeDecodeError`), or it has text. -/
inductive FileContent where
  | missing
  | undecodable
  | text (s : String)
deriving DecidableEq

/-- `_analyze_file_detailed`: a decoding failure yields the empty result (the
source only logs a warning); otherwise dispatch on the path suffix. -/
def analyzeFileDetailed (path : String) (fc : FileContent) :
    List CodeNode × List CodeRelationship :=
  match fc with
  | .missing => ([], [])
  | .undecodable => ([], [])
  | .text content =>
    if pathSuffix path = ".cs" then analyzeCsharpDetailed path content
    else if pathSuffix path = ".aspx" then analyzeAspxDetailed path content
    else if pathSuffix path = ".sql" then analyzeSqlDetailed path content
    else ([], [])

/-- The aggregate result dict of `analyze_specific_files`. -/
structure AnalysisResults where
  files_analyzed : Nat
  nodes_created : Nat
  relationships_found : Nat
  patterns_identified : Nat
  errors : List String
deriving DecidableEq

def emptyResults : AnalysisResults :=
  { files_analyzed := 0, nodes_created := 0, relationships_found := 0,
    patterns_identified := 0, errors := [] }

/-- One iteration of the file loop of `analyze_specific_files`: a missing
path records an error and continues; otherwise the extractor output is
upserted into the node store (counting every emission) and appended to the
relationship list. -/
def analyzeStep (fs : String → FileContent) (acc : ServerState × AnalysisResults)
    (path : String) : ServerState × AnalysisResults :=
  match fs path with
  | .missing =>
    (acc.1, { acc.2 with errors := acc.2.errors ++ ["File not found: " ++ path] })
  | fc =>
    let nr := analyzeFileDetailed path fc
    let st := { acc.1 with nodes := nr.1.foldl upsertNode acc.1.nodes,
                           relationships := acc.1.relationships ++ nr.2 }
    (st, { acc.2 with nodes_created := acc.2.nodes_created + nr.1.length,
                      relationships_found := acc.2.relationships_found + nr.2.length,
                      files_analyzed := acc.2.files_analyzed + 1 })

/-! ### Pattern recognition: `_find_crud_patterns`, `_find_page_patterns` -/

/-- `node.name.endswith(manager-suffix)` for a class node. -/
def isManagerClass (n : CodeNode) : Bool :=
  n.node_type == NodeType.CLASS && (strData "Manager").isSuffixOf n.name.data

/-- `node.name[:-7]`: the entity name obtained by removing the 7-character
manager suffix. -/
def entityOf (n : CodeNode) : String :=
  String.mk (n.name.data.take (n.name.data.length - 7))

/-- `entity_groups[entity_name].append(node)`, creating the key at the end of
the (insertion-ordered) dict when absent. -/
def addToGroup (gs : List (String × List CodeNode)) (e : String) (n : CodeNode) :
    List (String × List CodeNode) :=
  match gs with
  | [] => [(e, [n])]
  | (k, g) :: rest =>
    if k = e then (k, g ++ [n]) :: rest else (k, g) :: addToGroup rest e n

/-- The grouping loop of `_find_crud_patterns` over the node collection. -/
def entityGroupsAux (gs : List (String × List CodeNode)) (ns : List CodeNode) :
    List (String × List CodeNode) :=
  ns.foldl (fun gs n => if isManagerClass n then addToGroup gs (entityOf n) n else gs) gs

/-- `list(set(...))` on file paths.  Python set iteration order is
unspecified (hash-based); it is modelled as first-occurrence deduplication.
No property treated here depends on the order of `files`. -/
def dedupFiles (xs : List String) : List String :=
  xs.foldl (fun acc x => if x ∈ acc then acc else acc ++ [x]) []

/-- `s.lower()` on a `String`. -/
def lowerS (s : String) : String := String.mk (lowerL s.data)

/-- The pattern built for one entity group by `_find_crud_patterns`. -/
def crudPatternFor (st : ServerState) (e : String) (g : List CodeNode) : CodePattern :=
  { pattern_id := "crud_" ++ lowerS e
    pattern_type := "database_crud"
    files := dedupFiles (g.map (fun n => n.file_path))
    nodes := g
    relationships := st.relationships.filter (fun r =>
      g.any (fun n => r.source_id == n.id || r.target_id == n.id))
    template_data := [("entity_name", .vStr e),
                      ("table_name", .vStr (e ++ "s")),
                      ("primary_key", .vStr (e ++ "ID")),
                      ("manager_class", .vStr (e ++ "Manager"))]
    similarity_score := mkRat 8 10 }

/-- `_find_crud_patterns`. -/
def findCrudPatterns (st : ServerState) : List CodePattern :=
  (entityGroupsAux [] (st.nodes.map Prod.snd)).flatMap (fun p =>
    if p.2.length > 0 then [crudPatternFor st p.1 p.2] else [])

/-- The related-collection loop of `_find_page_patterns` for one page node:
every relationship touching the page is collected, and the node at the other
end is appended whenever it is present in the node store.  The node list
starts with the page itself. -/
def pageRelated (st : ServerState) (p : CodeNode) :
    List CodeNode × List CodeRelationship :=
  st.relationships.foldl (fun acc r =>
    if r.source_id == p.id || r.target_id == p.id then
      let otherId := if r.source_id == p.id then r.target_id else r.source_id
      match lookupNode st.nodes otherId with
      | some n => (acc.1 ++ [n], acc.2 ++ [r])
      | none => (acc.1, acc.2 ++ [r])
    else acc) ([p], [])

/-- The pattern (if any) that `_find_page_patterns` emits for one page node:
one is emitted exactly when the related list grew beyond the page itself. -/
def pagePatternFor (st : ServerState) (p : CodeNode) : Option CodePattern :=
  let pr := pageRelated st p
  if pr.1.length > 1 then
    some { pattern_id := "page_" ++ lowerS p.name
           pattern_type := "aspx_page"
           files := dedupFiles (pr.1.map (fun n => n.file_path))
           nodes := pr.1
           relationships := pr.2
           template_data := [("page_name", .vStr p.name),
                             ("control_count",
                              .vNat ((pr.1.filter (fun n =>
                                n.node_type == NodeType.ASPX_CONTROL)).length))]
           similarity_score := mkRat 7 10 }
  else none

/-- `_find_page_patterns`. -/
def findPagePatterns (st : ServerState) : List CodePattern :=
  ((st.nodes.map Prod.snd).filter (fun n => n.node_type == NodeType.ASPX_PAGE)).filterMap
    (pagePatternFor st)

/-- `_identify_patterns`. -/
def identifyPatterns (st : ServerState) : List CodePattern :=
  findCrudPatterns st ++ findPagePatterns st

/-- `analyze_specific_files(file_paths)`: the file loop, then
`_save_analysis_to_db` (durable mirror, not modelled), then
`_identify_patterns` — whose result is only counted, never assigned to
`self.patterns` (the returned state's `patterns` field is whatever it was). -/
def analyzeSpecificFiles (fs : String → FileContent) (st : ServerState)
    (paths : List String) : ServerState × AnalysisResults :=
  let r := paths.foldl (analyzeStep fs) (st, emptyResults)
  (r.1, { r.2 with patterns_identified := (identifyPatterns r.1).length })

/-! ### Query & export facade -/

/-- Count-dict update `d[k] = d.get(k, 0) + 1`. -/
def bumpCount (m : List (String × Nat)) (k : String) : List (String × Nat) :=
  match m with
  | [] => [(k, 1)]
  | (k2, c) :: rest => if k2 = k then (k2, c + 1) :: rest else (k2, c) :: bumpCount rest k

/-- Lookup in a count dict, `0` when absent. -/
def lookupCount (m : List (String × Nat)) (k : String) : Nat :=
  match m with
  | [] => 0
  | (k2, c) :: rest => if k2 = k then c else lookupCount rest k

def sumCounts (m : List (String × Nat)) : Nat := (m.map Prod.snd).sum

/-- `get_node_types_summary`. -/
def getNodeTypesSummary (st : ServerState) : List (String × Nat) :=
  (st.nodes.map Prod.snd).foldl (fun m n => bumpCount m n.node_type.value) []

/-- `get_relationship_types_summary`. -/
def getRelationshipTypesSummary (st : ServerState) : List (String × Nat) :=
  st.relationships.foldl (fun m r => bumpCount m r.relationship_type.value) []

/-- The document assembled by `export_graph_data` (the JSON file write is a
side channel; the function also returns this document). -/
structure ExportData where
  nodes : List CodeNode
  relationships : List CodeRelationship
  patterns : List CodePattern
  summary_node_types : List (String × Nat)
  summary_relationship_types : List (String × Nat)
deriving DecidableEq

/-- `export_graph_data`. -/
def exportGraphData (st : ServerState) : ExportData :=
  { nodes := st.nodes.map Prod.snd
    relationships := st.relationships
    patterns := st.patterns
    summary_node_types := getNodeTypesSummary st
    summary_relationship_types := getRelationshipTypesSummary st }

/-- The `find_patterns_by_type` tool branch of `handle_call_tool`:
filter `self.patterns` by exact `pattern_type` equality. -/
def findPatternsByType (st : ServerState) (patternType : String) : List CodePattern :=
  st.patterns.filter (fun p => p.pattern_type == patternType)

/-! ### Concrete scenario inputs -/

/-- The procedural-file scenario of the spec:
`namespace App.BusinessLogic` containing `class CustomerManager` containing
`public List<Customer> GetCustomers()`, in conventional multi-line layout. -/
def c5Content : String :=
  "namespace App.BusinessLogic\n\x7b\n    class CustomerManager\n    \x7b\n        public List<Customer> GetCustomers()\n        \x7b\n            return null;\n        \x7d\n    \x7d\n\x7d"

def c5Result : List CodeNode × List CodeRelationship :=
  analyzeCsharpDetailed "CustomerManager.cs" c5Content

/-- A C# file whose `Load` method runs a stored procedure through
`SqlCommand` — the data-access idiom of the claim. -/
def c2Content : String :=
  "namespace App\n\x7b\n    public class CustomerManager\n    \x7b\n        public void Load()\n        \x7b\n            SqlCommand cmd = new SqlCommand(\"sp_GetCustomers\", conn);\n        \x7d\n    \x7d\n\x7d"

/-- The schema-file scenario of the spec: `CREATE PROCEDURE sp_GetCustomers`
followed by a `SELECT ... FROM Customers` statement. -/
def c4Sql : String := "CREATE PROCEDURE sp_GetCustomers\nSELECT * FROM Customers"

def c4Result : List CodeNode × List CodeRelationship :=
  analyzeSqlDetailed "schema.sql" c4Sql

/-- A filesystem with a single C# file declaring a Manager-suffixed class. -/
def c1Fs : String → FileContent := fun p =>
  if p = "CustomerManager.cs" then
    .text "public class CustomerManager\n\x7b\n\x7d"
  else .missing

def c1Post : ServerState × AnalysisResults :=
  analyzeSpecificFiles c1Fs initState ["CustomerManager.cs"]

/-- A filesystem on which every path exists but fails text decoding. -/
def undecodableFs : String → FileContent := fun _ => .undecodable

/-! ### C5 -/

/-- C5: for the procedural file declaring namespace `App.BusinessLogic`
containing class `CustomerManager` containing public method `GetCustomers`,
`_analyze_csharp_detailed` yields exactly one namespace node, one class node
and one method node (three nodes in total), and exactly two `contains` edges:
namespace→class and class→method. -/
theorem c5_csharp_scenario :
    (c5Result.1.filter (fun n => n.node_type == NodeType.NAMESPACE)).length = 1
    ∧ (c5Result.1.filter (fun n => n.node_type == NodeType.CLASS)).length = 1
    ∧ (c5Result.1.filter (fun n => n.node_type == NodeType.METHOD)).length = 1
    ∧ c5Result.1.length = 3
    ∧ c5Result.2.map (fun r => (r.source_id, r.target_id, r.relationship_type)) =
        [("CustomerManager.cs:namespace:App.BusinessLogic",
          "CustomerManager.cs:class:CustomerManager", RelationshipType.CONTAINS),
         ("CustomerManager.cs:class:CustomerManager",
          "CustomerManager.cs:method:CustomerManager:GetCustomers",
          RelationshipType.CONTAINS)] := by
  decide

/-! ### C2: `in_method` is initialized `False` and never assigned, so the
`database_access` emission guard can never hold. -/

def isDbAccess (r : CodeRelationship) : Bool :=
  r.relationship_type == RelationshipType.DATABASE_ACCESS

theorem bracesUpdate_in_method (st : CsState) (ls : List Char) :
    (bracesUpdate st ls).in_method = st.in_method := rfl

theorem nsBranch_in_method (fp : String) (n : Nat) (ls : List Char) (st : CsState)
    (nodes : List CodeNode) : (nsBranch fp n ls st nodes).1.in_method = st.in_method := by
  unfold nsBranch
  cases matchNamespaceDecl ls <;> rfl

theorem classBranch_in_method (fp : String) (n : Nat) (ls : List Char) (st : CsState)
    (nodes : List CodeNode) (rels : List CodeRelationship) :
    (classBranch fp n ls st nodes rels).1.in_method = st.in_method := by
  unfold classBranch
  cases matchClassDecl ls <;> rfl

theorem methodBranch_in_method (fp : String) (n : Nat) (ls : List Char) (st : CsState)
    (nodes : List CodeNode) (rels : List CodeRelationship) :
    (methodBranch fp n ls st nodes rels).1.in_method = st.in_method := by
  unfold methodBranch
  split
  · split <;> rfl
  · rfl

theorem classBranch_rels_db (fp : String) (n : Nat) (ls : List Char) (st : CsState)
    (nodes : List CodeNode) (rels : List CodeRelationship) :
    ((classBranch fp n ls st nodes rels).2.2).filter isDbAccess = rels.filter isDbAccess := by
  unfold classBranch
  rcases matchClassDecl ls with _ | c
  · rfl
  · rcases st.current_namespace with _ | ns <;>
      simp [isDbAccess, List.filter_append]

theorem methodBranch_rels_db (fp : String) (n : Nat) (ls : List Char) (st : CsState)
    (nodes : List CodeNode) (rels : List CodeRelationship) :
    ((methodBranch fp n ls st nodes rels).2.2).filter isDbAccess = rels.filter isDbAccess := by
  unfold methodBranch
  split
  · split
    · rfl
    · simp [isDbAccess, List.filter_append]
  · rfl

theorem dbBranch_rels_db (fp : String) (n : Nat) (ls : List Char) (st : CsState)
    (nodes : List CodeNode) (rels : List CodeRelationship)
    (h : st.in_method = false) :
    ((dbBranch fp n ls st nodes rels).2).filter isDbAccess = rels.filter isDbAccess := by
  unfold dbBranch
  split
  · rcases searchQuotedIdent ls with _ | p
    · rfl
    · simp only []
      split
      · simp [h]
      · rfl
  · rfl

theorem processCsLine_in_method (fp : String)
    (acc : CsState × List CodeNode × List CodeRelationship) (ln : Nat × List Char) :
    (processCsLine fp acc ln).1.in_method = acc.1.in_method := by
  simp only [processCsLine]
  rw [methodBranch_in_method, classBranch_in_method, nsBranch_in_method,
    bracesUpdate_in_method]

theorem processCsLine_rels_db (fp : String)
    (acc : CsState × List CodeNode × List CodeRelationship) (ln : Nat × List Char)
    (h : acc.1.in_method = false) :
    ((processCsLine fp acc ln).2.2).filter isDbAccess = acc.2.2.filter isDbAccess := by
  simp only [processCsLine]
  rw [dbBranch_rels_db, methodBranch_rels_db, classBranch_rels_db]
  rw [methodBranch_in_method, classBranch_in_method, nsBranch_in_method,
    bracesUpdate_in_method, h]

theorem csFold_rels_db (fp : String) (lns : List (Nat × List Char)) :
    ∀ (acc : CsState × List CodeNode × List CodeRelationship),
      acc.1.in_method = false →
      ((lns.foldl (processCsLine fp) acc).2.2).filter isDbAccess =
        acc.2.2.filter isDbAccess := by
  induction lns with
  | nil => intro acc _; rfl
  | cons ln rest ih =>
    intro acc h
    have h2 : (processCsLine fp acc ln).1.in_method = false := by
      rw [processCsLine_in_method, h]
    calc ((rest.foldl (processCsLine fp) (processCsLine fp acc ln)).2.2).filter isDbAccess
        = ((processCsLine fp acc ln).2.2).filter isDbAccess := ih _ h2
      _ = acc.2.2.filter isDbAccess := processCsLine_rels_db fp acc ln h

/-- C2: the procedural-code extractor never emits any `database_access`
relationship at all — the guard `in_method and current_class` can never hold
because `in_method` is initialized `False` and never assigned — even though
(second conjunct) the recognized data-access idiom plus `sp_`-quoted
identifier does create the stored-procedure node on demand.  This contradicts
the claim, which mandates a `database_access` edge for such lines. -/
theorem c2_database_access_edge_never_emitted :
    (∀ (fp content : String),
      (analyzeCsharpDetailed fp content).2.filter isDbAccess = [])
    ∧ ((analyzeCsharpDetailed "CustomerManager.cs" c2Content).1.filter
        (fun n => n.node_type == NodeType.STORED_PROCEDURE)).map (fun n => n.id) =
        ["database:procedure:sp_GetCustomers"] := by
  constructor
  · intro fp content
    have h := csFold_rels_db fp (enumFrom 1 (splitLinesL content.data)) (csInit, [], []) rfl
    exact h
  · decide

/-! ### C4: the schema-file scenario (names are uppercased by the extractor) -/

/-- C4 counterexample: on the scenario schema file the extractor does emit
exactly one table node, but its name is `CUSTOMERS` (the source matches
against the uppercased line and takes the group from it), so no table node
named `Customers` exists, contradicting the claim. -/
theorem c4_table_name_counterexample :
    (c4Result.1.filter (fun n =>
      n.node_type == NodeType.TABLE && n.name == "Customers")).length = 0
    ∧ (c4Result.1.filter (fun n => n.node_type == NodeType.TABLE)).length = 1 := by
  decide

/-- C4 amended: extraction from the scenario schema file yields exactly one
`stored_procedure` node and exactly one `table` node, whose names are the
uppercased `SP_GETCUSTOMERS` and `CUSTOMERS` (the extractor uppercases each
line before matching and keeps the uppercased identifiers). -/
theorem c4_sql_scenario_amended :
    (c4Result.1.filter (fun n => n.node_type == NodeType.STORED_PROCEDURE)).map
        (fun n => n.name) = ["SP_GETCUSTOMERS"]
    ∧ (c4Result.1.filter (fun n => n.node_type == NodeType.TABLE)).map
        (fun n => n.name) = ["CUSTOMERS"]
    ∧ c4Result.1.length = 2 := by
  decide

/-! ### C1: patterns are identified but never stored, so lookup returns nothing -/

/-- C1: after analyzing a file that yields the Manager-suffixed class node
`CustomerManager`, the engine does identify exactly one `database_crud`
pattern (and reports `patterns_identified = 1`), yet
`find_patterns_by_type("database_crud")` returns the empty list, because
`analyze_specific_files` never assigns the identified patterns to
`self.patterns`.  This contradicts the claim that the lookup returns the
recognized CRUD pattern. -/
theorem c1_find_patterns_by_type_empty :
    findPatternsByType c1Post.1 "database_crud" = []
    ∧ c1Post.2.patterns_identified = 1
    ∧ ((identifyPatterns c1Post.1).filter
        (fun p => p.pattern_type == "database_crud")).length = 1
    ∧ c1Post.1.patterns = [] := by
  decide

/-! ### C3: decoding failures are silently skipped, not recorded -/

/-- C3 counterexample: analyzing a single path that exists but fails text
decoding produces an empty `errors` list and counts the file in
`files_analyzed` — the claim asserts the opposite on both points. -/
theorem c3_decode_failure_counterexample :
    ((analyzeSpecificFiles undecodableFs initState ["bad.cs"]).2).errors = []
    ∧ ((analyzeSpecificFiles undecodableFs initState ["bad.cs"]).2).files_analyzed = 1 := by
  decide

/-! ### Additivity of the file loop of `analyze_specific_files` -/

/-- Pointwise combination of two aggregate results (counters add, error lists
concatenate). -/
def addResults (a b : AnalysisResults) : AnalysisResults :=
  { files_analyzed := a.files_analyzed + b.files_analyzed
    nodes_created := a.nodes_created + b.nodes_created
    relationships_found := a.relationships_found + b.relationships_found
    patterns_identified := a.patterns_identified + b.patterns_identified
    errors := a.errors ++ b.errors }

theorem addResults_empty_left (a : AnalysisResults) : addResults emptyResults a = a := by
  simp [addResults, emptyResults]

theorem addResults_empty_right (a : AnalysisResults) : addResults a emptyResults = a := by
  simp [addResults, emptyResults]

theorem addResults_assoc (a b c : AnalysisResults) :
    addResults (addResults a b) c = addResults a (addResults b c) := by
  simp [addResults, Nat.add_assoc, List.append_assoc]

theorem analyzeStep_add (fs : String → FileContent) (st : ServerState)
    (res d : AnalysisResults) (p : String) :
    analyzeStep fs (st, addResults res d) p =
      ((analyzeStep fs (st, d) p).1, addResults res (analyzeStep fs (st, d) p).2) := by
  unfold analyzeStep
  cases fs p <;> simp [addResults, Nat.add_assoc, List.append_assoc]

theorem analyzeLoop_add (fs : String → FileContent) (ps : List String) :
    ∀ (st : ServerState) (res : AnalysisResults),
      ps.foldl (analyzeStep fs) (st, res) =
        ((ps.foldl (analyzeStep fs) (st, emptyResults)).1,
         addResults res (ps.foldl (analyzeStep fs) (st, emptyResults)).2) := by
  induction ps with
  | nil => intro st res; simp [addResults_empty_right]
  | cons p rest ih =>
    intro st res
    have h1 : analyzeStep fs (st, res) p =
        ((analyzeStep fs (st, emptyResults) p).1,
         addResults res (analyzeStep fs (st, emptyResults) p).2) := by
      have := analyzeStep_add fs st res emptyResults p
      rwa [addResults_empty_right] at this
    simp only [List.foldl_cons]
    rw [h1, ih ((analyzeStep fs (st, emptyResults) p).1)
          (addResults res (analyzeStep fs (st, emptyResults) p).2),
        ih (analyzeStep fs (st, emptyResults) p).1 (analyzeStep fs (st, emptyResults) p).2,
        addResults_assoc]

/-! ### C3 (amended): a decode-failing file is a silent no-op that is
counted as analyzed -/

/-- C3 amended: for every path that exists but fails text decoding, a call
`analyze_specific_files (p :: ps)` behaves exactly like the call on `ps`
alone, except that `files_analyzed` is one larger: the file contributes no
error entry, no nodes and no relationships (the source only logs a warning),
is counted in `files_analyzed`, and processing continues with the remaining
files. -/
theorem c3_decode_failure_amended (fs : String → FileContent) (st : ServerState)
    (ps : List String) (p : String) (h : fs p = FileContent.undecodable) :
    (analyzeSpecificFiles fs st (p :: ps)).1 = (analyzeSpecificFiles fs st ps).1
    ∧ (analyzeSpecificFiles fs st (p :: ps)).2.errors =
        (analyzeSpecificFiles fs st ps).2.errors
    ∧ (analyzeSpecificFiles fs st (p :: ps)).2.files_analyzed =
        (analyzeSpecificFiles fs st ps).2.files_analyzed + 1
    ∧ (analyzeSpecificFiles fs st (p :: ps)).2.nodes_created =
        (analyzeSpecificFiles fs st ps).2.nodes_created
    ∧ (analyzeSpecificFiles fs st (p :: ps)).2.relationships_found =
        (analyzeSpecificFiles fs st ps).2.relationships_found
    ∧ (analyzeSpecificFiles fs st (p :: ps)).2.patterns_identified =
        (analyzeSpecificFiles fs st ps).2.patterns_identified := by
  have hstep : analyzeStep fs (st, emptyResults) p =
      (st, { emptyResults with files_analyzed := 1 }) := by
    unfold analyzeStep
    rw [h]
    simp [analyzeFileDetailed, emptyResults]
  unfold analyzeSpecificFiles
  simp only [List.foldl_cons, hstep]
  have hone : ({ emptyResults with files_analyzed := 1 } : AnalysisResults) =
      addResults { emptyResults with files_analyzed := 1 } emptyResults := by
    rw [addResults_empty_right]
  rw [hone, analyzeLoop_add fs ps st (addResults { emptyResults with files_analyzed := 1 } emptyResults)]
  rw [addResults_empty_right]
  simp [addResults, emptyResults, Nat.add_comm]

/-- Witness for the amended C3 at a concrete input. -/
theorem c3_decode_failure_amended_witness :
    undecodableFs "bad.cs" = FileContent.undecodable
    ∧ ((analyzeSpecificFiles undecodableFs initState ["bad.cs"]).1 =
          (analyzeSpecificFiles undecodableFs initState []).1
        ∧ (analyzeSpecificFiles undecodableFs initState ["bad.cs"]).2.errors =
            (analyzeSpecificFiles undecodableFs initState []).2.errors
        ∧ (analyzeSpecificFiles undecodableFs initState ["bad.cs"]).2.files_analyzed =
            (analyzeSpecificFiles undecodableFs initState []).2.files_analyzed + 1
        ∧ (analyzeSpecificFiles undecodableFs initState ["bad.cs"]).2.nodes_created =
            (analyzeSpecificFiles undecodableFs initState []).2.nodes_created
        ∧ (analyzeSpecificFiles undecodableFs initState ["bad.cs"]).2.relationships_found =
            (analyzeSpecificFiles undecodableFs initState []).2.relationships_found
        ∧ (analyzeSpecificFiles undecodableFs initState ["bad.cs"]).2.patterns_identified =
            (analyzeSpecificFiles undecodableFs initState []).2.patterns_identified) :=
  ⟨rfl, c3_decode_failure_amended undecodableFs initState [] "bad.cs" rfl⟩

/-! ### C10: `nodes_created` counts emissions, not distinct nodes -/

/-- The nodes the extractors emit for one input path: nothing for a missing
path (it is skipped before extraction), otherwise the first component of
`_analyze_file_detailed`. -/
def emittedNodes (fs : String → FileContent) (p : String) : List CodeNode :=
  match fs p with
  | .missing => []
  | fc => (analyzeFileDetailed p fc).1

theorem analyzeStep_nodes_created (fs : String → FileContent)
    (acc : ServerState × AnalysisResults) (p : String) :
    (analyzeStep fs acc p).2.nodes_created =
      acc.2.nodes_created + (emittedNodes fs p).length := by
  unfold analyzeStep emittedNodes
  cases fs p <;> simp

theorem analyzeLoop_nodes_created (fs : String → FileContent) (ps : List String) :
    ∀ (acc : ServerState × AnalysisResults),
      (ps.foldl (analyzeStep fs) acc).2.nodes_created =
        acc.2.nodes_created + (ps.map (fun p => (emittedNodes fs p).length)).sum := by
  induction ps with
  | nil => intro acc; simp
  | cons p rest ih =>
    intro acc
    simp only [List.foldl_cons, List.map_cons, List.sum_cons]
    rw [ih (analyzeStep fs acc p), analyzeStep_nodes_created, Nat.add_assoc]

/-- A filesystem with a single one-class C# file, to be analyzed twice in one
call. -/
def c10Fs : String → FileContent := fun p =>
  if p = "M.cs" then .text "public class CustomerManager" else .missing

/-- C10: in every call, the returned `nodes_created` counter equals the total
number of node emissions by the per-file extractors over all successfully
read files (a re-emission of an already-stored id counts again); on the
concrete call that lists the same one-class file twice, `nodes_created` is 2
while the node store holds a single node, so the counter exceeds the number
of distinct stored nodes. -/
theorem c10_nodes_created_counts_emissions :
    (∀ (fs : String → FileContent) (st : ServerState) (ps : List String),
      (analyzeSpecificFiles fs st ps).2.nodes_created =
        (ps.map (fun p => (emittedNodes fs p).length)).sum)
    ∧ (analyzeSpecificFiles c10Fs initState ["M.cs", "M.cs"]).2.nodes_created = 2
    ∧ (analyzeSpecificFiles c10Fs initState ["M.cs", "M.cs"]).1.nodes.length = 1 := by
  refine ⟨fun fs st ps => ?_, by decide, by decide⟩
  unfold analyzeSpecificFiles
  simp only []
  rw [analyzeLoop_nodes_created]
  simp [emptyResults]

/-! ### C6: upsert semantics of the node store -/

/-- The last node in an emission list carrying a given id (later emissions
win on upsert). -/
def findLastNode : List CodeNode → String → Option CodeNode
  | [], _ => none
  | n :: rest, k =>
    match findLastNode rest k with
    | some x => some x
    | none => if n.id = k then some n else none

theorem lookupNode_upsertNode (m : List (String × CodeNode)) (n : CodeNode)
    (key : String) :
    lookupNode (upsertNode m n) key =
      if n.id = key then some n else lookupNode m key := by
  induction m with
  | nil => rfl
  | cons kv rest ih =>
    obtain ⟨k, v⟩ := kv
    by_cases hk : k = n.id
    · subst hk
      simp only [upsertNode, if_pos rfl, lookupNode]
      by_cases hkey : n.id = key
      · simp [hkey]
      · simp [hkey]
    · simp only [upsertNode, if_neg hk, lookupNode]
      by_cases hkey : k = key
      · subst hkey
        have : n.id ≠ k := fun h => hk h.symm
        simp [this]
      · simp [hkey, ih]

theorem idsOf_upsertNode (m : List (String × CodeNode)) (n : CodeNode) :
    idsOf (upsertNode m n) =
      if n.id ∈ idsOf m then idsOf m else idsOf m ++ [n.id] := by
  induction m with
  | nil => simp [upsertNode, idsOf]
  | cons kv rest ih =>
    obtain ⟨k, v⟩ := kv
    by_cases hk : k = n.id
    · simp [upsertNode, hk, idsOf]
    · have hne : n.id ≠ k := fun h => hk h.symm
      simp only [upsertNode, if_neg hk, idsOf, List.map_cons] at ih ⊢
      by_cases hmem : n.id ∈ List.map Prod.fst rest
      · simp [List.mem_cons, hne, hmem, ih]
      · simp [List.mem_cons, hne, hmem, ih]

theorem mem_idsOf_upsertAll (ns : List CodeNode) :
    ∀ (m : List (String × CodeNode)) (k : String),
      k ∈ idsOf (ns.foldl upsertNode m) ↔
        k ∈ idsOf m ∨ k ∈ ns.map CodeNode.id := by
  induction ns with
  | nil => intro m k; simp
  | cons n rest ih =>
    intro m k
    simp only [List.foldl_cons, List.map_cons, List.mem_cons]
    rw [ih]
    rw [idsOf_upsertNode]
    by_cases hmem : n.id ∈ idsOf m
    · simp only [if_pos hmem]
      constructor
      · rintro (h | h)
        · exact Or.inl h
        · exact Or.inr (Or.inr h)
      · rintro (h | h | h)
        · exact Or.inl h
        · exact Or.inl (h ▸ hmem)
        · exact Or.inr h
    · simp only [if_neg hmem, List.mem_append, List.mem_singleton]
      tauto

theorem idsOf_upsertAll_of_subset (ns : List CodeNode) :
    ∀ (m : List (String × CodeNode)), (∀ n ∈ ns, n.id ∈ idsOf m) →
      idsOf (ns.foldl upsertNode m) = idsOf m := by
  induction ns with
  | nil => intro m _; rfl
  | cons n rest ih =>
    intro m h
    simp only [List.foldl_cons]
    have h1 : n.id ∈ idsOf m := h n (List.mem_cons_self n rest)
    have h2 : idsOf (upsertNode m n) = idsOf m := by
      rw [idsOf_upsertNode, if_pos h1]
    rw [ih (upsertNode m n) (fun x hx => by
      rw [h2]; exact h x (List.mem_cons_of_mem n hx)), h2]

theorem nodup_idsOf_upsertNode (m : List (String × CodeNode)) (n : CodeNode)
    (h : (idsOf m).Nodup) : (idsOf (upsertNode m n)).Nodup := by
  rw [idsOf_upsertNode]
  by_cases hmem : n.id ∈ idsOf m
  · simpa [hmem] using h
  · simp only [if_neg hmem]
    rw [List.nodup_append]
    refine ⟨h, List.nodup_singleton _, ?_⟩
    intro a ha hb
    rw [List.mem_singleton] at hb
    subst hb
    exact hmem ha

theorem nodup_idsOf_upsertAll (ns : List CodeNode) :
    ∀ (m : List (String × CodeNode)), (idsOf m).Nodup →
      (idsOf (ns.foldl upsertNode m)).Nodup := by
  induction ns with
  | nil => intro m h; exact h
  | cons n rest ih =>
    intro m h
    exact ih (upsertNode m n) (nodup_idsOf_upsertNode m n h)

theorem lookupNode_upsertAll (ns : List CodeNode) :
    ∀ (m : List (String × CodeNode)) (k : String),
      lookupNode (ns.foldl upsertNode m) k =
        match findLastNode ns k with
        | some x => some x
        | none => lookupNode m k := by
  induction ns with
  | nil => intro m k; rfl
  | cons n rest ih =>
    intro m k
    simp only [List.foldl_cons, findLastNode]
    rw [ih (upsertNode m n) k]
    cases hlast : findLastNode rest k with
    | some x => simp
    | none =>
      rw [lookupNode_upsertNode]
      by_cases hid : n.id = k
      · simp [hid]
      · simp [hid]

theorem lookupNode_eq_none_of_not_mem (m : List (String × CodeNode)) (k : String)
    (h : k ∉ idsOf m) : lookupNode m k = none := by
  induction m with
  | nil => rfl
  | cons kv rest ih =>
    obtain ⟨k2, v⟩ := kv
    simp only [idsOf, List.map_cons, List.mem_cons, not_or] at h
    have hne : k2 ≠ k := fun he => h.1 he.symm
    simp only [lookupNode, if_neg hne]
    exact ih (by simpa [idsOf] using h.2)

/-- An association list with duplicate-free keys is determined by its key
sequence and its lookup function. -/
theorem assoc_ext (m1 : List (String × CodeNode)) :
    ∀ (m2 : List (String × CodeNode)),
      idsOf m1 = idsOf m2 →
      (∀ k, lookupNode m1 k = lookupNode m2 k) →
      (idsOf m1).Nodup → m1 = m2 := by
  induction m1 with
  | nil =>
    intro m2 hids _ _
    cases m2 with
    | nil => rfl
    | cons kv rest => simp [idsOf] at hids
  | cons kv rest ih =>
    intro m2 hids hlook hnodup
    obtain ⟨k, v⟩ := kv
    cases m2 with
    | nil => simp [idsOf] at hids
    | cons kv2 rest2 =>
      obtain ⟨k2, v2⟩ := kv2
      simp only [idsOf, List.map_cons, List.cons.injEq] at hids
      obtain ⟨hk, hrest⟩ := hids
      subst hk
      have hv : v = v2 := by
        have := hlook k
        simp [lookupNode] at this
        exact this
      subst hv
      simp only [idsOf, List.map_cons, List.nodup_cons] at hnodup
      have hknotin : k ∉ idsOf rest := by simpa [idsOf] using hnodup.1
      have hknotin2 : k ∉ idsOf rest2 := by
        simp only [idsOf] at hknotin ⊢
        rw [← hrest]
        exact hknotin
      have htail : ∀ key, lookupNode rest key = lookupNode rest2 key := by
        intro key
        by_cases hkey : k = key
        · subst hkey
          rw [lookupNode_eq_none_of_not_mem rest k hknotin,
              lookupNode_eq_none_of_not_mem rest2 k hknotin2]
        · have := hlook key
          simpa [lookupNode, if_neg hkey] using this
      rw [ih rest2 (by simpa [idsOf] using hrest) htail (by simpa [idsOf] using hnodup.2)]

/-- Re-upserting the same emission list is a no-op on a store with
duplicate-free keys. -/
theorem upsertAll_idem (ns : List CodeNode) (m : List (String × CodeNode))
    (h : (idsOf m).Nodup) :
    ns.foldl upsertNode (ns.foldl upsertNode m) = ns.foldl upsertNode m := by
  have hsub : ∀ n ∈ ns, n.id ∈ idsOf (ns.foldl upsertNode m) := by
    intro n hn
    rw [mem_idsOf_upsertAll]
    exact Or.inr (List.mem_map_of_mem CodeNode.id hn)
  apply assoc_ext
  · exact idsOf_upsertAll_of_subset ns (ns.foldl upsertNode m) hsub
  · intro k
    simp only [lookupNode_upsertAll]
    cases hl : findLastNode ns k with
    | some x => simp [hl]
    | none => simp [hl]
  · exact nodup_idsOf_upsertAll ns (ns.foldl upsertNode m) (nodup_idsOf_upsertAll ns m h)

/-- The node store produced by a single-path call, uniformly over the three
filesystem outcomes. -/
theorem analyzeSingle_nodes (fs : String → FileContent) (st : ServerState) (p : String) :
    (analyzeSpecificFiles fs st [p]).1.nodes =
      (emittedNodes fs p).foldl upsertNode st.nodes := by
  unfold analyzeSpecificFiles analyzeStep emittedNodes
  cases h : fs p <;> simp [h]

/-- C6: analyzing the same file a second time reproduces the same node id
multiset and leaves the node store exactly as it was after the first
analysis — nodes are upserted by id, never duplicated (the store is assumed
to have duplicate-free keys, an invariant every reachable store satisfies). -/
theorem c6_reanalysis_idempotent (fs : String → FileContent) (st : ServerState)
    (p : String) (h : (idsOf st.nodes).Nodup) :
    (analyzeSpecificFiles fs (analyzeSpecificFiles fs st [p]).1 [p]).1.nodes =
      (analyzeSpecificFiles fs st [p]).1.nodes
    ∧ idsOf (analyzeSpecificFiles fs (analyzeSpecificFiles fs st [p]).1 [p]).1.nodes =
        idsOf (analyzeSpecificFiles fs st [p]).1.nodes := by
  have h1 := analyzeSingle_nodes fs st p
  have h2 := analyzeSingle_nodes fs (analyzeSpecificFiles fs st [p]).1 p
  rw [h1] at h2
  have : (analyzeSpecificFiles fs (analyzeSpecificFiles fs st [p]).1 [p]).1.nodes =
      (analyzeSpecificFiles fs st [p]).1.nodes := by
    rw [h2, h1, upsertAll_idem (emittedNodes fs p) st.nodes h]
  exact ⟨this, by rw [this]⟩

/-- Witness for C6 at a concrete input (fresh engine, one-class C# file). -/
theorem c6_reanalysis_idempotent_witness :
    (idsOf initState.nodes).Nodup
    ∧ ((analyzeSpecificFiles c10Fs (analyzeSpecificFiles c10Fs initState ["M.cs"]).1
          ["M.cs"]).1.nodes =
        (analyzeSpecificFiles c10Fs initState ["M.cs"]).1.nodes
      ∧ idsOf (analyzeSpecificFiles c10Fs (analyzeSpecificFiles c10Fs initState ["M.cs"]).1
            ["M.cs"]).1.nodes =
          idsOf (analyzeSpecificFiles c10Fs initState ["M.cs"]).1.nodes) :=
  ⟨List.nodup_nil, c6_reanalysis_idempotent c10Fs initState "M.cs" List.nodup_nil⟩

/-! ### C9: the export document agrees with both histograms -/

theorem lookupCount_bumpCount (m : List (String × Nat)) (k s : String) :
    lookupCount (bumpCount m k) s = lookupCount m s + (if k = s then 1 else 0) := by
  induction m with
  | nil =>
    simp only [bumpCount, lookupCount]
    by_cases h : k = s <;> simp [h]
  | cons kv rest ih =>
    obtain ⟨k2, c⟩ := kv
    by_cases hk : k2 = k
    · subst hk
      simp only [bumpCount, if_pos rfl, lookupCount]
      by_cases hs : k2 = s <;> simp [hs]
    · simp only [bumpCount, if_neg hk, lookupCount]
      by_cases hs : k2 = s
      · subst hs
        have : ¬ (k = k2) := fun h => hk h.symm
        simp [this]
      · simp [hs, ih]

theorem sumCounts_bumpCount (m : List (String × Nat)) (k : String) :
    sumCounts (bumpCount m k) = sumCounts m + 1 := by
  induction m with
  | nil => simp [bumpCount, sumCounts]
  | cons kv rest ih =>
    obtain ⟨k2, c⟩ := kv
    by_cases hk : k2 = k
    · simp [bumpCount, hk, sumCounts]
      omega
    · simp only [bumpCount, if_neg hk, sumCounts, List.map_cons, List.sum_cons] at ih ⊢
      omega

theorem lookupCount_foldBump {α : Type} (f : α → String) (xs : List α) :
    ∀ (acc : List (String × Nat)) (s : String),
      lookupCount (xs.foldl (fun m a => bumpCount m (f a)) acc) s =
        lookupCount acc s + (xs.filter (fun a => f a = s)).length := by
  induction xs with
  | nil => intro acc s; simp
  | cons a rest ih =>
    intro acc s
    simp only [List.foldl_cons]
    rw [ih (bumpCount acc (f a)) s, lookupCount_bumpCount]
    by_cases h : f a = s
    · simp [h, List.filter_cons]
      omega
    · simp [h, List.filter_cons]

theorem sumCounts_foldBump {α : Type} (f : α → String) (xs : List α) :
    ∀ (acc : List (String × Nat)),
      sumCounts (xs.foldl (fun m a => bumpCount m (f a)) acc) =
        sumCounts acc + xs.length := by
  induction xs with
  | nil => intro acc; simp
  | cons a rest ih =>
    intro acc
    simp only [List.foldl_cons, List.length_cons]
    rw [ih (bumpCount acc (f a)), sumCounts_bumpCount]
    omega

/-- C9: for every graph state (the empty one included), the export document
agrees with both histograms: for every kind string `s`, the number of node
entries of that kind in the exported `nodes` list equals that kind's count in
`get_node_types_summary`, likewise for relationship types, and the histogram
totals equal the lengths of the exported lists. -/
theorem c9_export_matches_summaries (st : ServerState) (s : String) :
    lookupCount (exportGraphData st).summary_node_types s =
      ((exportGraphData st).nodes.filter (fun n => n.node_type.value = s)).length
    ∧ lookupCount (exportGraphData st).summary_relationship_types s =
        ((exportGraphData st).relationships.filter
          (fun r => r.relationship_type.value = s)).length
    ∧ sumCounts (exportGraphData st).summary_node_types =
        (exportGraphData st).nodes.length
    ∧ sumCounts (exportGraphData st).summary_relationship_types =
        (exportGraphData st).relationships.length := by
  refine ⟨?_, ?_, ?_, ?_⟩
  · have := lookupCount_foldBump (fun n : CodeNode => n.node_type.value)
      (st.nodes.map Prod.snd) [] s
    simpa [exportGraphData, getNodeTypesSummary, lookupCount] using this
  · have := lookupCount_foldBump (fun r : CodeRelationship => r.relationship_type.value)
      st.relationships [] s
    simpa [exportGraphData, getRelationshipTypesSummary, lookupCount] using this
  · have := sumCounts_foldBump (fun n : CodeNode => n.node_type.value)
      (st.nodes.map Prod.snd) []
    simpa [exportGraphData, getNodeTypesSummary, sumCounts] using this
  · have := sumCounts_foldBump (fun r : CodeRelationship => r.relationship_type.value)
      st.relationships []
    simpa [exportGraphData, getRelationshipTypesSummary, sumCounts] using this

/-! ### C7: CRUD grouping -/

/-- Lookup in a `template_data` / `metadata` mapping. -/
def lookupVal (k : String) : Metadata → Option Val
  | [] => none
  | (k2, v) :: rest => if k2 = k then some v else lookupVal k rest

/-- The entity prefixes of the Manager-suffixed class nodes, in node order. -/
def managerEntities (ns : List CodeNode) : List String :=
  ns.filterMap (fun n => if isManagerClass n then some (entityOf n) else none)

/-- First-occurrence deduplication (the key order of an insertion-ordered
dict built by repeated insertion). -/
def firstDedup (acc : List String) (es : List String) : List String :=
  es.foldl (fun ks e => if e ∈ ks then ks else ks ++ [e]) acc

theorem keys_addToGroup (gs : List (String × List CodeNode)) (e : String) (n : CodeNode) :
    (addToGroup gs e n).map Prod.fst =
      if e ∈ gs.map Prod.fst then gs.map Prod.fst else gs.map Prod.fst ++ [e] := by
  induction gs with
  | nil => simp [addToGroup]
  | cons kv rest ih =>
    obtain ⟨k, g⟩ := kv
    by_cases hk : k = e
    · simp [addToGroup, hk]
    · have hne : e ≠ k := fun h => hk h.symm
      simp only [addToGroup, if_neg hk, List.map_cons, ih, List.mem_cons]
      by_cases hmem : e ∈ rest.map Prod.fst
      · simp [hmem, hne]
      · simp [hmem, hne]

theorem entityGroupsAux_cons_true (gs : List (String × List CodeNode)) (n : CodeNode)
    (rest : List CodeNode) (h : isManagerClass n = true) :
    entityGroupsAux gs (n :: rest) = entityGroupsAux (addToGroup gs (entityOf n) n) rest := by
  unfold entityGroupsAux
  simp [h]

theorem entityGroupsAux_cons_false (gs : List (String × List CodeNode)) (n : CodeNode)
    (rest : List CodeNode) (h : isManagerClass n = false) :
    entityGroupsAux gs (n :: rest) = entityGroupsAux gs rest := by
  unfold entityGroupsAux
  simp [h]

theorem managerEntities_cons_true (n : CodeNode) (rest : List CodeNode)
    (h : isManagerClass n = true) :
    managerEntities (n :: rest) = entityOf n :: managerEntities rest := by
  simp [managerEntities, h]

theorem managerEntities_cons_false (n : CodeNode) (rest : List CodeNode)
    (h : isManagerClass n = false) :
    managerEntities (n :: rest) = managerEntities rest := by
  simp [managerEntities, h]

theorem firstDedup_cons (acc : List String) (e : String) (es : List String) :
    firstDedup acc (e :: es) = firstDedup (if e ∈ acc then acc else acc ++ [e]) es := rfl

theorem keys_entityGroupsAux (ns : List CodeNode) :
    ∀ (gs : List (String × List CodeNode)),
      (entityGroupsAux gs ns).map Prod.fst =
        firstDedup (gs.map Prod.fst) (managerEntities ns) := by
  induction ns with
  | nil => intro gs; rfl
  | cons n rest ih =>
    intro gs
    cases hm : isManagerClass n
    · rw [entityGroupsAux_cons_false gs n rest hm, ih gs,
        managerEntities_cons_false n rest hm]
    · rw [entityGroupsAux_cons_true gs n rest hm, ih (addToGroup gs (entityOf n) n),
        managerEntities_cons_true n rest hm, firstDedup_cons, keys_addToGroup]

theorem snd_ne_nil_addToGroup (gs : List (String × List CodeNode)) (e : String)
    (n : CodeNode) (h : ∀ p ∈ gs, p.2 ≠ []) :
    ∀ p ∈ addToGroup gs e n, p.2 ≠ [] := by
  induction gs with
  | nil =>
    intro p hp
    simp only [addToGroup, List.mem_singleton] at hp
    subst hp
    simp
  | cons kv rest ih =>
    obtain ⟨k, g⟩ := kv
    intro p hp
    by_cases hk : k = e
    · simp only [addToGroup, if_pos hk, List.mem_cons] at hp
      rcases hp with hp | hp
      · subst hp; simp
      · exact h p (List.mem_cons_of_mem _ hp)
    · simp only [addToGroup, if_neg hk, List.mem_cons] at hp
      rcases hp with hp | hp
      · subst hp; exact h (k, g) (List.mem_cons_self _ _)
      · exact ih (fun q hq => h q (List.mem_cons_of_mem _ hq)) p hp

theorem snd_ne_nil_entityGroupsAux (ns : List CodeNode) :
    ∀ (gs : List (String × List CodeNode)), (∀ p ∈ gs, p.2 ≠ []) →
      ∀ p ∈ entityGroupsAux gs ns, p.2 ≠ [] := by
  induction ns with
  | nil => intro gs h; exact h
  | cons n rest ih =>
    intro gs h
    by_cases hm : isManagerClass n
    · simp only [entityGroupsAux, List.foldl_cons, hm, if_true] at ih ⊢
      exact ih (addToGroup gs (entityOf n) n) (snd_ne_nil_addToGroup gs (entityOf n) n h)
    · simp only [entityGroupsAux, List.foldl_cons, hm, if_false] at ih ⊢
      exact ih gs h

theorem flatMap_eq_map_of_snd_ne_nil (st : ServerState)
    (gs : List (String × List CodeNode)) (h : ∀ p ∈ gs, p.2 ≠ []) :
    (gs.flatMap (fun p => if p.2.length > 0 then [crudPatternFor st p.1 p.2] else [])) =
      gs.map (fun p => crudPatternFor st p.1 p.2) := by
  induction gs with
  | nil => rfl
  | cons p rest ih =>
    have hp : p.2 ≠ [] := h p (List.mem_cons_self _ _)
    have hlen : p.2.length > 0 := List.length_pos.mpr hp
    simp only [List.flatMap_cons, List.map_cons, if_pos hlen]
    rw [ih (fun q hq => h q (List.mem_cons_of_mem _ hq))]
    rfl

theorem findCrudPatterns_eq_map (st : ServerState) :
    findCrudPatterns st =
      (entityGroupsAux [] (st.nodes.map Prod.snd)).map
        (fun p => crudPatternFor st p.1 p.2) := by
  unfold findCrudPatterns
  exact flatMap_eq_map_of_snd_ne_nil st _
    (snd_ne_nil_entityGroupsAux (st.nodes.map Prod.snd) [] (by simp))

/-- The two-manager-class store of the scenario: class nodes `ProductManager`
and `CustomerManager`. -/
def stPC : ServerState :=
  { nodes :=
      [("a.cs:class:ProductManager",
        { id := "a.cs:class:ProductManager", name := "ProductManager",
          node_type := .CLASS, file_path := "a.cs", line_number := 1, metadata := [] }),
       ("b.cs:class:CustomerManager",
        { id := "b.cs:class:CustomerManager", name := "CustomerManager",
          node_type := .CLASS, file_path := "b.cs", line_number := 1, metadata := [] })]
    relationships := []
    patterns := [] }

/-- C7: CRUD grouping emits exactly one pattern per distinct entity prefix of
the Manager-suffixed class nodes (in first-occurrence order), each of type
`database_crud` with `template_data` holding `entity_name = e`,
`table_name = e ++ "s"`, `primary_key = e ++ "ID"` and
`manager_class = e ++ "Manager"`; on the store holding class nodes
`ProductManager` and `CustomerManager` it yields exactly the two patterns
with entity names `Product` and `Customer`. -/
theorem c7_crud_grouping :
    (∀ st : ServerState,
      (findCrudPatterns st).map (fun p => lookupVal "entity_name" p.template_data) =
        (firstDedup [] (managerEntities (st.nodes.map Prod.snd))).map
          (fun e => some (Val.vStr e))
      ∧ ∀ p ∈ findCrudPatterns st,
          p.pattern_type = "database_crud"
          ∧ ∃ e, p.template_data =
              [("entity_name", Val.vStr e),
               ("table_name", Val.vStr (e ++ "s")),
               ("primary_key", Val.vStr (e ++ "ID")),
               ("manager_class", Val.vStr (e ++ "Manager"))])
    ∧ (findCrudPatterns stPC).map (fun p => lookupVal "entity_name" p.template_data) =
        [some (Val.vStr "Product"), some (Val.vStr "Customer")] := by
  constructor
  · intro st
    constructor
    · rw [findCrudPatterns_eq_map, List.map_map]
      have hkeys := keys_entityGroupsAux (st.nodes.map Prod.snd)
        ([] : List (String × List CodeNode))
      simp only [List.map_nil] at hkeys
      rw [← hkeys]
      simp only [List.map_map]
      congr 1
    · intro p hp
      rw [findCrudPatterns_eq_map] at hp
      rcases List.mem_map.mp hp with ⟨q, _, hq⟩
      subst hq
      exact ⟨rfl, q.1, rfl⟩
  · decide

/-- A pattern with every field empty, used only as a `getD` fallback. -/
def emptyPattern : CodePattern :=
  { pattern_id := "", pattern_type := "", files := [], nodes := [],
    relationships := [], template_data := [], similarity_score := 0 }

def c7Pat : CodePattern := (findCrudPatterns stPC).headD emptyPattern

/-- Witness for C7's per-pattern conjunct at the concrete two-manager store. -/
theorem c7_crud_grouping_witness :
    c7Pat ∈ findCrudPatterns stPC
    ∧ (c7Pat.pattern_type = "database_crud"
       ∧ ∃ e, c7Pat.template_data =
           [("entity_name", Val.vStr e),
            ("table_name", Val.vStr (e ++ "s")),
            ("primary_key", Val.vStr (e ++ "ID")),
            ("manager_class", Val.vStr (e ++ "Manager"))]) :=
  ⟨by decide, (c7_crud_grouping.1 stPC).2 c7Pat (by decide)⟩

/-! ### C8: page grouping -/

/-- The store nodes collected by the related-loop of `_find_page_patterns`
for one page node, one occurrence per incident relationship whose other
endpoint is present in the node store (multiplicity preserved). -/
def relatedOccurrences (st : ServerState) (p : CodeNode) : List CodeNode :=
  st.relationships.filterMap (fun r =>
    if r.source_id == p.id || r.target_id == p.id then
      lookupNode st.nodes (if r.source_id == p.id then r.target_id else r.source_id)
    else none)

theorem pageRelated_fst (st : ServerState) (p : CodeNode) :
    (pageRelated st p).1 = p :: relatedOccurrences st p := by
  suffices h : ∀ (rels : List CodeRelationship) (accN : List CodeNode)
      (accR : List CodeRelationship),
      (rels.foldl (fun acc r =>
        if r.source_id == p.id || r.target_id == p.id then
          let otherId := if r.source_id == p.id then r.target_id else r.source_id
          match lookupNode st.nodes otherId with
          | some n => (acc.1 ++ [n], acc.2 ++ [r])
          | none => (acc.1, acc.2 ++ [r])
        else acc) (accN, accR)).1 =
        accN ++ rels.filterMap (fun r =>
          if r.source_id == p.id || r.target_id == p.id then
            lookupNode st.nodes (if r.source_id == p.id then r.target_id else r.source_id)
          else none) by
    have h2 := h st.relationships [p] []
    unfold pageRelated relatedOccurrences
    simpa using h2
  intro rels
  induction rels with
  | nil => intro accN accR; simp
  | cons r rest ih =>
    intro accN accR
    simp only [List.foldl_cons, List.filterMap_cons]
    cases hinc : (r.source_id == p.id || r.target_id == p.id)
    · simp only [Bool.false_eq_true, if_false]
      exact ih accN accR
    · simp only [if_true]
      cases hl : lookupNode st.nodes (if r.source_id == p.id then r.target_id else r.source_id)
      · simp only [hl]
        exact ih accN (accR ++ [r])
      · simp only [hl]
        rw [ih (accN ++ [_]) (accR ++ [r])]
        simp

theorem pagePatternFor_isSome (st : ServerState) (p : CodeNode) :
    (pagePatternFor st p).isSome = !(relatedOccurrences st p).isEmpty := by
  simp only [pagePatternFor, pageRelated_fst]
  cases relatedOccurrences st p with
  | nil => simp
  | cons n rest => simp

theorem pagePatternFor_control_count (st : ServerState) (p : CodeNode)
    (pat : CodePattern) (h : pagePatternFor st p = some pat) :
    lookupVal "control_count" pat.template_data =
      some (Val.vNat (((p :: relatedOccurrences st p).filter
        (fun n => n.node_type == NodeType.ASPX_CONTROL)).length)) := by
  simp only [pagePatternFor, pageRelated_fst] at h
  by_cases hlen : (p :: relatedOccurrences st p).length > 1
  · rw [if_pos hlen] at h
    cases h
    simp [lookupVal]
  · rw [if_neg hlen] at h
    cases h

/-- C8 (amended): `_find_page_patterns` emits a pattern for a page node
exactly when some relationship touching the page has its other endpoint
present in the node store, and the emitted `template_data` reports the
number of control-typed entries among the collected related occurrences —
one occurrence per incident edge, so a control connected by several edges is
counted once per edge, not once per node. -/
theorem c8_page_grouping_amended (st : ServerState) (p : CodeNode) :
    ((pagePatternFor st p).isSome = !(relatedOccurrences st p).isEmpty)
    ∧ ∀ pat, pagePatternFor st p = some pat →
        lookupVal "control_count" pat.template_data =
          some (Val.vNat (((p :: relatedOccurrences st p).filter
            (fun n => n.node_type == NodeType.ASPX_CONTROL)).length)) :=
  ⟨pagePatternFor_isSome st p, fun pat h => pagePatternFor_control_count st p pat h⟩

/-- A one-control markup file, analyzed twice so that the page→control edge
is duplicated in the relationship list. -/
def c8Fs : String → FileContent := fun p =>
  if p = "Home.aspx" then .text "<asp:Button ID=\"Btn1\" />" else .missing

def stDup : ServerState :=
  (analyzeSpecificFiles c8Fs (analyzeSpecificFiles c8Fs initState ["Home.aspx"]).1
    ["Home.aspx"]).1

/-- The page node the markup extractor stores for `Home.aspx`. -/
def c8Page : CodeNode :=
  { id := "Home.aspx:page:Home", name := "Home", node_type := .ASPX_PAGE,
    file_path := "Home.aspx", line_number := 1, metadata := [("page_type", .vStr "aspx")] }

/-- Reading of the claim's words, for comparison: the number of distinct
(other) control-typed nodes of the store directly connected to the page by
an edge in either direction. -/
def distinctRelatedControls (st : ServerState) (p : CodeNode) : Nat :=
  ((st.nodes.map Prod.snd).filter (fun n =>
    n.node_type == NodeType.ASPX_CONTROL && n.id != p.id &&
    st.relationships.any (fun r =>
      (r.source_id == p.id && r.target_id == n.id) ||
      (r.target_id == p.id && r.source_id == n.id)))).length

/-- C8 counterexample: after analyzing the same one-control markup file
twice (which re-appends the page→control `contains` edge), the emitted
pattern's `control_count` is 2 although only one related control node
exists, so the template does not report the number of related control
nodes. -/
theorem c8_control_count_counterexample :
    ((pagePatternFor stDup c8Page).map
        (fun pat => lookupVal "control_count" pat.template_data)) =
      some (some (Val.vNat 2))
    ∧ distinctRelatedControls stDup c8Page = 1
    ∧ ¬ ((pagePatternFor stDup c8Page).map
          (fun pat => lookupVal "control_count" pat.template_data)) =
        some (some (Val.vNat (distinctRelatedControls stDup c8Page))) := by
  decide

def dummyPattern : CodePattern :=
  { pattern_id := "", pattern_type := "", files := [], nodes := [],
    relationships := [], template_data := [], similarity_score := 0 }

def c8Pat : CodePattern := (pagePatternFor stDup c8Page).getD dummyPattern

/-- Witness for the amended C8 at the concrete duplicated-edge store. -/
theorem c8_page_grouping_amended_witness :
    ((pagePatternFor stDup c8Page).isSome = !(relatedOccurrences stDup c8Page).isEmpty)
    ∧ pagePatternFor stDup c8Page = some c8Pat
    ∧ lookupVal "control_count" c8Pat.template_data =
        some (Val.vNat (((c8Page :: relatedOccurrences stDup c8Page).filter
          (fun n => n.node_type == NodeType.ASPX_CONTROL)).length)) :=
  ⟨(c8_page_grouping_amended stDup c8Page).1, by decide,
   (c8_page_grouping_amended stDup c8Page).2 c8Pat (by decide)⟩

end CodeGraph
